import Mathlib

/-!
Verification of the Time-Tracker extension core: a shallow embedding of the
storage layer (`saveTime`, `incrementVisitCount`, `getAggregatedData`,
`getSiteAnalysisData`, `getTrendMetrics`, settings handling) and of the
background service worker (`commitTime`, `startTracking`, `checkLimits`),
with theorems about the tracking, debouncing, limiting and aggregation logic.

Times and timestamps are milliseconds, modelled as `Int` (JS numbers on
integer values).  The asynchronous `chrome.storage.local` store is modelled
by explicit state passing: each function takes the parts of the store it
reads and returns the parts it writes.  Host-runtime facilities that cannot
be computed (URL parsing, the active-tab query, the current date) are
passed in as parameters.
-/

/-- Notification idempotency flags of a per-day, per-domain record
(`NotificationState` in types). -/
structure NotificationState where
  sent80 : Bool
  sent100 : Bool
deriving Repr, DecidableEq

/-- A per-domain record inside one day's `DailyData`.  The optional
`notifications` field of the source is modelled as always present, with the
absent value represented by both flags `false`, and the optional
`visitCount` of legacy data represented by `0`. -/
structure SiteRecord where
  time : Int
  favicon : String
  lastVisited : Int
  visitCount : Nat
  notifications : NotificationState
deriving Repr, DecidableEq

/-- One day's record: the `DailyData` object, a map from domain to
`SiteRecord`, modelled as an association list. -/
def DailyData := List (String × SiteRecord)

instance : DecidableEq DailyData := by
  unfold DailyData
  infer_instance

/-- Map lookup: `todayData[domain]`, `none` for an absent key. -/
def getRec (td : DailyData) (domain : String) : Option SiteRecord :=
  match td with
  | [] => none
  | (k, r) :: rest => if k = domain then some r else getRec rest domain

/-- Map update: `todayData[domain] = r` (insert or replace). -/
def setRec (td : DailyData) (domain : String) (r : SiteRecord) : DailyData :=
  match td with
  | [] => [(domain, r)]
  | (k, r') :: rest =>
      if k = domain then (domain, r) :: rest else (k, r') :: setRec rest domain r

/-- Accumulated time of a domain in a day record, `0` when absent. -/
def timeOf (td : DailyData) (domain : String) : Int :=
  match getRec td domain with
  | some r => r.time
  | none => 0

/-- Visit count of a domain in a day record, `0` when absent. -/
def visitCountOf (td : DailyData) (domain : String) : Nat :=
  match getRec td domain with
  | some r => r.visitCount
  | none => 0

/-- The `sent80` flag of a domain in a day record, `false` when absent. -/
def sent80Of (td : DailyData) (domain : String) : Bool :=
  match getRec td domain with
  | some r => r.notifications.sent80
  | none => false

/-- The `sent100` flag of a domain in a day record, `false` when absent. -/
def sent100Of (td : DailyData) (domain : String) : Bool :=
  match getRec td domain with
  | some r => r.notifications.sent100
  | none => false

/-- User settings (`Settings` in types). -/
structure Settings where
  trackingDelaySeconds : Int
  theme : String
deriving Repr, DecidableEq

/-- `DEFAULT_SETTINGS` from the storage module. -/
def DEFAULT_SETTINGS : Settings :=
  { trackingDelaySeconds := 15, theme := "blue-500" }

/-- `setSettings`: merges a partial settings object over the current one
(the spread `{ ...current, ...settings }`). -/
def setSettings (current : Settings) (pDelay : Option Int) (pTheme : Option String) :
    Settings :=
  { trackingDelaySeconds := pDelay.getD current.trackingDelaySeconds,
    theme := pTheme.getD current.theme }

/-- `parseInt(e.target.value) || 1` from the dashboard's tracking-delay
input: a failed parse (`NaN`, modelled `none`) and the falsy value `0` both
yield `1`. -/
def parsedOr1 (v : Option Int) : Int :=
  match v with
  | none => 1
  | some n => if n = 0 then 1 else n

/-- The dashboard's tracking-delay `onChange` handler:
`Math.min(100, Math.max(1, parseInt(e.target.value) || 1))`. -/
def clampTrackingDelay (v : Option Int) : Int :=
  min 100 (max 1 (parsedOr1 v))

/-- `handleSaveSettings` composed with `setSettings`: the settings object
persisted when the user saves, given the current settings, the raw
tracking-delay input and the selected theme. -/
def savedSettings (current : Settings) (rawDelay : Option Int) (themeId : String) :
    Settings :=
  setSettings current (some (clampTrackingDelay rawDelay)) (some themeId)

/-- `saveTime(domain, duration, favicon)` from the storage module, acting on
today's `DailyData` given the whitelist; `now` stands for `Date.now()`. -/
def saveTime (domain : String) (duration : Int) (favicon : String) (now : Int)
    (whitelist : List String) (td : DailyData) : DailyData :=
  if domain = "" ∨ duration ≤ 0 then td
  else if whitelist.contains domain then td
  else
    let r :=
      match getRec td domain with
      | some r => r
      | none =>
          { time := 0, favicon := favicon, lastVisited := now, visitCount := 0,
            notifications := ⟨false, false⟩ }
    setRec td domain
      { r with
        time := r.time + duration,
        lastVisited := now,
        favicon := if favicon ≠ "" then favicon else r.favicon }

/-- `incrementVisitCount(domain, favicon)` from the storage module, acting
on today's `DailyData` given the whitelist. -/
def incrementVisitCount (domain : String) (favicon : String) (now : Int)
    (whitelist : List String) (td : DailyData) : DailyData :=
  if whitelist.contains domain then td
  else
    match getRec td domain with
    | none =>
        setRec td domain
          { time := 0, favicon := favicon, lastVisited := now, visitCount := 1,
            notifications := ⟨false, false⟩ }
    | some r =>
        setRec td domain
          { r with
            visitCount := r.visitCount + 1,
            lastVisited := now,
            favicon := if favicon ≠ "" then favicon else r.favicon }

/-- A per-domain daily limit (`Limit` in types). -/
structure Limit where
  timeLimit : Int
  notify80 : Bool
  notify100 : Bool
  blockOnLimit : Bool
deriving Repr, DecidableEq

/-- Modelled from the spec: `getLimit(domain)` (imported by the service
worker from the storage module but absent from the provided sources) looks
the domain up in the persisted `limits` map; absence of an entry means
unlimited. -/
def getLimit (limits : List (String × Limit)) (domain : String) : Option Limit :=
  match limits with
  | [] => none
  | (k, l) :: rest => if k = domain then some l else getLimit rest domain

/-- Today's usage of a domain as read by the limit evaluator. -/
structure DailyUsage where
  time : Int
  notifications : NotificationState
deriving Repr, DecidableEq

/-- Modelled from the spec: `getDailyUsage(domain)` (imported by the service
worker but absent from the provided sources) reads the domain's record from
today's daily bucket, defaulting to zero time and unsent notification flags
when the record or its `notifications` field is absent. -/
def getDailyUsage (td : DailyData) (domain : String) : DailyUsage :=
  match getRec td domain with
  | some r => { time := r.time, notifications := r.notifications }
  | none => { time := 0, notifications := ⟨false, false⟩ }

/-- Modelled from the spec: `updateNotificationState(domain, partial)`
(imported by the service worker but absent from the provided sources) merges
the given partial `{sent80?, sent100?}` object into the domain's stored
notification flags, creating a default record when none exists. -/
def updateNotificationState (td : DailyData) (domain : String)
    (s80 s100 : Option Bool) : DailyData :=
  let r :=
    match getRec td domain with
    | some r => r
    | none =>
        { time := 0, favicon := "", lastVisited := 0, visitCount := 0,
          notifications := ⟨false, false⟩ }
  setRec td domain
    { r with
      notifications :=
        { sent80 := s80.getD r.notifications.sent80,
          sent100 := s100.getD r.notifications.sent100 } }

/-- Outcome of one `checkLimits` call: the updated daily bucket and which
external actions fired (80%/100% notification, block redirect). -/
structure CheckOutcome where
  today : DailyData
  fired80 : Bool
  fired100 : Bool
  blocked : Bool
deriving DecidableEq

/-- `checkLimits(domain, timeToAdd)` from the service worker.  `0.8 *
timeLimit` is rendered exactly: `total >= limit.timeLimit * 0.8` becomes
`5 * total ≥ 4 * timeLimit`.  `activeTabDomain` stands for the domain of
the active tab resolved by `chrome.tabs.query` (`none` when no tab
resolves); both notification checks read the usage snapshot fetched at the
start, as in the source. -/
def checkLimits (limits : List (String × Limit)) (domain : String)
    (timeToAdd : Int) (activeTabDomain : Option String) (td : DailyData) :
    CheckOutcome :=
  match getLimit limits domain with
  | none => ⟨td, false, false, false⟩
  | some limit =>
      let usage := getDailyUsage td domain
      let totalTime := usage.time + timeToAdd
      let is80Percent : Bool := decide (5 * totalTime ≥ 4 * limit.timeLimit)
      let is100Percent : Bool := decide (totalTime ≥ limit.timeLimit)
      let f80 : Bool :=
        limit.notify80 && is80Percent && !usage.notifications.sent80 && !is100Percent
      let td1 :=
        if f80 then updateNotificationState td domain (some true) none else td
      let f100 : Bool := limit.notify100 && is100Percent && !usage.notifications.sent100
      let td2 :=
        if f100 then updateNotificationState td1 domain none (some true) else td1
      let blocked : Bool :=
        limit.blockOnLimit && is100Percent && decide (activeTabDomain = some domain)
      ⟨td2, f80, f100, blocked⟩

/-- Repeated invocations of `checkLimits` with a list of `timeToAdd`
arguments, threading the daily bucket through and counting how many times
the 80% and the 100% notification fired. -/
def iterateChecks (limits : List (String × Limit)) (domain : String)
    (activeTabDomain : Option String) (adds : List Int) (td : DailyData) :
    Nat × Nat × DailyData :=
  match adds with
  | [] => (0, 0, td)
  | t :: rest =>
      let o := checkLimits limits domain t activeTabDomain td
      let p := iterateChecks limits domain activeTabDomain rest o.today
      ((if o.fired80 then 1 else 0) + p.1, (if o.fired100 then 1 else 0) + p.2.1,
        p.2.2)

/-- Character-list implementation of `startsWith`, used so that string
tests evaluate by kernel reduction. -/
def listStarts : List Char → List Char → Bool
  | _, [] => true
  | [], _ :: _ => false
  | c :: cs, d :: ds => (c == d) && listStarts cs ds

/-- `s.startsWith(p)` on strings. -/
def strStarts (s p : String) : Bool := listStarts s.toList p.toList

/-- `getDomain(url)` from the service worker: `none` for the empty string,
for browser-internal scheme URLs and for parse failures; otherwise the
hostname with a leading `www.` stripped (the `replace(/^www\./, "")`).
`parseHostname` stands for `new URL(url).hostname` (`none` = the
constructor throws). -/
def getDomain (parseHostname : String → Option String) (url : String) :
    Option String :=
  if url = "" then none
  else if ["chrome://", "chrome-extension://", "about:", "edge://"].any
      (fun p => strStarts url p) then none
  else
    match parseHostname url with
    | none => none
    | some h =>
        some (if strStarts h "www." then String.mk (h.toList.drop 4) else h)

/-- `getFavicon(url)` from the service worker. -/
def getFavicon (parseHostname : String → Option String) (url : String) : String :=
  match parseHostname url with
  | none => ""
  | some h => "https://www.google.com/s2/favicons?domain=" ++ h ++ "&sz=64"

/-- The persisted tracking state (`_currentUrl`, `_startTime`, `_favicon`
keys of `chrome.storage.local`); `none` models an absent key. -/
structure TrackingState where
  currentUrl : Option String
  startTime : Option Int
  favicon : Option String
deriving Repr, DecidableEq

/-- The guard of `commitTime`: `!data._currentUrl || !data._startTime`
negated.  JS falsiness makes the empty string and the timestamp `0` count
as absent. -/
def hasSession (ts : TrackingState) : Bool :=
  !(ts.currentUrl.getD "" = "") && !(ts.startTime.getD 0 = 0)

/-- `commitTime()` from the service worker, returning the updated daily
bucket.  `now` stands for `Date.now()`, `delaySec` for
`settings.trackingDelaySeconds`, and `activeTabDomain` for the active-tab
lookup done inside `checkLimits`.  The JS truthiness test `if (domain &&
...)` makes an empty extracted domain fall through to the no-write branch. -/
def commitTime (parseHostname : String → Option String) (now : Int)
    (delaySec : Int) (whitelist : List String) (limits : List (String × Limit))
    (activeTabDomain : Option String) (ts : TrackingState) (td : DailyData) :
    DailyData :=
  if !hasSession ts then td
  else
    let duration := now - ts.startTime.getD 0
    let minDuration := delaySec * 1000
    match getDomain parseHostname (ts.currentUrl.getD "") with
    | none => td
    | some domain =>
        if domain ≠ "" ∧ minDuration ≤ duration ∧ duration ≤ 300000 then
          let td1 := saveTime domain duration (ts.favicon.getD "") now whitelist td
          (checkLimits limits domain 0 activeTabDomain td1).today
        else td

/-- The module-level visit-debounce state `_lastVisit` of the service
worker. -/
structure LastVisit where
  domain : String
  timestamp : Int
deriving Repr, DecidableEq

/-- Initial `_lastVisit` value `{domain: "", timestamp: 0}`. -/
def initialLastVisit : LastVisit := { domain := "", timestamp := 0 }

/-- Outcome of one `startTracking` call: whether a block redirect happened,
whether `incrementVisitCount` was invoked, whether the tracking-state keys
were written, plus the resulting tracking state, debounce state and daily
bucket. -/
structure StartOutcome where
  redirected : Bool
  visited : Bool
  stateSet : Bool
  state : TrackingState
  lastVisit : LastVisit
  today : DailyData
deriving DecidableEq

/-- `startTracking(url, trackVisit)` from the service worker.  `now` stands
for `Date.now()`, `tabResolved` for the success of the active-tab query in
the blocking branch (`tab && tab.id`), `prev` for the tracking state keys
currently in storage and `lv` for the module-level `_lastVisit`.  A blocked
navigation returns before any visit counting or state write; an untrackable
URL runs `stopTracking`, clearing all three keys. -/
def startTracking (parseHostname : String → Option String) (url : String)
    (trackVisit : Bool) (now : Int) (limits : List (String × Limit))
    (whitelist : List String) (tabResolved : Bool) (prev : TrackingState)
    (lv : LastVisit) (td : DailyData) : StartOutcome :=
  match getDomain parseHostname url with
  | some domain =>
      if domain = "" then
        ⟨false, false, false, ⟨none, none, none⟩, lv, td⟩
      else
        let blockNow : Bool :=
          match getLimit limits domain with
          | some limit =>
              limit.blockOnLimit && decide ((getDailyUsage td domain).time ≥ limit.timeLimit)
          | none => false
        if blockNow && tabResolved then
          ⟨true, false, false, prev, lv, td⟩
        else
          let isDuplicate : Bool :=
            decide (domain = lv.domain) && decide (now - lv.timestamp < 5000)
          let doVisit : Bool := trackVisit && !isDuplicate
          let td' :=
            if doVisit then
              incrementVisitCount domain (getFavicon parseHostname url) now whitelist td
            else td
          let lv' := if doVisit then { domain := domain, timestamp := now } else lv
          ⟨false, doVisit, true,
            ⟨some url, some now, some (getFavicon parseHostname url)⟩, lv', td'⟩
  | none =>
      ⟨false, false, false, ⟨none, none, none⟩, lv, td⟩

/-- The date-key pattern test `key.match(/^\d{4}-\d{2}-\d{2}$/)`. -/
def isDateKey (k : String) : Bool :=
  match k.toList with
  | [a, b, c, d, e, f, g, h, i, j] =>
      a.isDigit && b.isDigit && c.isDigit && d.isDigit && (e == '-') &&
        f.isDigit && g.isDigit && (h == '-') && i.isDigit && j.isDigit
  | _ => false

/-- Ceiling division on naturals: `Math.ceil(a / b)` for nonnegative `a`,
positive `b`. -/
def ceilDivNat (a b : Nat) : Nat := (a + b - 1) / b

/-- `Math.ceil(Math.abs(today - date) / 86400000)`: the day distance used
by the range filters, from the millisecond timestamps of now and of the
parsed date key. -/
def diffDays (nowMs keyMs : Int) : Nat :=
  ceilDivNat (nowMs - keyMs).natAbs 86400000

/-- The `TimeRange` union type. -/
inductive TimeRange where
  | today
  | week
  | month
  | year
  | allTime
deriving Repr, DecidableEq

/-- The per-key decision of the `getAggregatedData` scan: skip the
`whitelist` key, skip keys that are not date keys, then apply the range
filter (`today`: exact key match against `getTodayKey()`; `week`/`month`/
`year`: `diffDays` at most 7/30/365; `all-time`: include).  `todayKey`
stands for `getTodayKey()`, `nowMs` for `today.getTime()` and `dateMs key`
for `new Date(key).getTime()`. -/
def includeKey (range : TimeRange) (todayKey : String) (nowMs : Int)
    (dateMs : String → Int) (key : String) : Bool :=
  if key = "whitelist" then false
  else if !isDateKey key then false
  else
    match range with
    | .today => key == todayKey
    | .week => decide (diffDays nowMs (dateMs key) ≤ 7)
    | .month => decide (diffDays nowMs (dateMs key) ≤ 30)
    | .year => decide (diffDays nowMs (dateMs key) ≤ 365)
    | .allTime => true

/-- The inner loop of `getAggregatedData`: merge one included day's records
into the accumulated per-domain result (create a zero record on first
sight, add time and visit count, keep the most recent favicon and
`lastVisited`). -/
def mergeDay (acc : DailyData) (dd : DailyData) : DailyData :=
  match dd with
  | [] => acc
  | (domain, s) :: rest =>
      let r0 :=
        match getRec acc domain with
        | some r => r
        | none =>
            { time := 0, favicon := s.favicon, lastVisited := s.lastVisited,
              visitCount := 0, notifications := ⟨false, false⟩ }
      let r1 :=
        { r0 with
          time := r0.time + s.time,
          visitCount := r0.visitCount + s.visitCount }
      let r2 :=
        if s.lastVisited > r1.lastVisited then
          { r1 with lastVisited := s.lastVisited, favicon := s.favicon }
        else r1
      mergeDay (setRec acc domain r2) rest

/-- The scan loop of `getAggregatedData`: fold the stored keys through the
range filter, merging each included day's records into the accumulator. -/
def aggregateDaysFrom (range : TimeRange) (todayKey : String) (nowMs : Int)
    (dateMs : String → Int) : List (String × DailyData) → DailyData → DailyData
  | [], acc => acc
  | (k, dd) :: rest, acc =>
      aggregateDaysFrom range todayKey nowMs dateMs rest
        (if includeKey range todayKey nowMs dateMs k then mergeDay acc dd else acc)

/-- The scan of `getAggregatedData`: fold every stored key through the
range filter, merging the included days' records, starting empty. -/
def aggregateDays (range : TimeRange) (todayKey : String) (nowMs : Int)
    (dateMs : String → Int) (store : List (String × DailyData)) : DailyData :=
  aggregateDaysFrom range todayKey nowMs dateMs store []

/-- `totalTime` of `getAggregatedData`: the sum of the accumulated
per-domain times. -/
def totalAggregatedTime (result : DailyData) : Int :=
  match result with
  | [] => 0
  | (_, r) :: rest => r.time + totalAggregatedTime rest

/-- `Math.max(...dailyData.map(d => d.time), 1)` from
`getSiteAnalysisData`: the intensity denominator, the maximum daily time
with a floor of 1. -/
def maxTimeForIntensity (times : List Int) : Int :=
  match times with
  | [] => 1
  | t :: rest => max t (maxTimeForIntensity rest)

/-- Ceiling division on integers (positive divisor):
`Math.ceil(a / b)`. -/
def ceilDivInt (a b : Int) : Int := (a + b - 1) / b

/-- The heat-map intensity of one day from `getSiteAnalysisData`:
`time > 0 ? Math.min(4, Math.ceil((time / maxTimeForIntensity) * 4)) : 0`,
with the real-valued `ceil((time / m) * 4)` rendered exactly as
`ceilDivInt (time * 4) m`. -/
def heatIntensity (time m : Int) : Int :=
  if time > 0 then min 4 (ceilDivInt (time * 4) m) else 0

/-- The heat-map series of `getSiteAnalysisData`: for each of the 182
calendar dates (supplied as `dates`, most recent last), look the date up in
the domain's daily series (`dayEntry?.time || 0`) and attach the intensity
against the historical maximum. -/
def heatMapSeries (daily : List (String × Int)) (dates : List String) :
    List (String × Int × Int) :=
  dates.map (fun ds =>
    let time :=
      match daily.lookup ds with
      | some t => t
      | none => 0
    (ds, time, heatIntensity time (maxTimeForIntensity (daily.map (fun p => p.2)))))

/-- The fields of `getTrendMetrics` involved in the window and
percentage-change logic; `prevStart`/`prevEnd`/`prevTotalTime`/
`prevTotalVisits` expose the source's local variables of the same names. -/
structure TrendMetrics where
  activeDays : Nat
  totalDays : Int
  totalTime : Int
  totalVisits : Int
  prevStart : Int
  prevEnd : Int
  prevTotalTime : Int
  prevTotalVisits : Int
  timeChange : Rat
  visitsChange : Rat
deriving DecidableEq

/-- The `getTrendMetrics` scan, time component: sum of the domain's daily
times over stored date keys whose parsed timestamp lies in `[lo, hi]`. -/
def sumTimeInRange (dateMs : String → Int) (domain : String) (lo hi : Int) :
    List (String × DailyData) → Int
  | [] => 0
  | (k, dd) :: rest =>
      (if isDateKey k then
        match getRec dd domain with
        | some r => if lo ≤ dateMs k ∧ dateMs k ≤ hi then r.time else 0
        | none => 0
      else 0) + sumTimeInRange dateMs domain lo hi rest

/-- The `getTrendMetrics` scan, visit component. -/
def sumVisitsInRange (dateMs : String → Int) (domain : String) (lo hi : Int) :
    List (String × DailyData) → Int
  | [] => 0
  | (k, dd) :: rest =>
      (if isDateKey k then
        match getRec dd domain with
        | some r => if lo ≤ dateMs k ∧ dateMs k ≤ hi then (r.visitCount : Int) else 0
        | none => 0
      else 0) + sumVisitsInRange dateMs domain lo hi rest

/-- The `getTrendMetrics` scan, active-day count over the current window. -/
def countActiveDays (dateMs : String → Int) (domain : String) (lo hi : Int) :
    List (String × DailyData) → Nat
  | [] => 0
  | (k, dd) :: rest =>
      (if isDateKey k then
        match getRec dd domain with
        | some _ => if lo ≤ dateMs k ∧ dateMs k ≤ hi then 1 else 0
        | none => 0
      else 0) + countActiveDays dateMs domain lo hi rest

/-- `getTrendMetrics(domain, startDate, endDate)`: inclusive day count
`daysDiff = ceil((end - start) / 86400000) + 1`, previous window
`[prevEnd - (daysDiff - 1) days, start - 1 day]`, totals over both windows,
and percentage changes guarded by `prev > 0`.  Dates are passed as parsed
millisecond timestamps (`startMs`, `endMs`); `dateMs` parses stored keys. -/
def getTrendMetrics (store : List (String × DailyData)) (dateMs : String → Int)
    (domain : String) (startMs endMs : Int) : TrendMetrics :=
  let daysDiff := ceilDivInt (endMs - startMs) 86400000 + 1
  let prevEnd := startMs - 86400000
  let prevStart := prevEnd - (daysDiff - 1) * 86400000
  let totalTime := sumTimeInRange dateMs domain startMs endMs store
  let totalVisits := sumVisitsInRange dateMs domain startMs endMs store
  let prevTotalTime := sumTimeInRange dateMs domain prevStart prevEnd store
  let prevTotalVisits := sumVisitsInRange dateMs domain prevStart prevEnd store
  { activeDays := countActiveDays dateMs domain startMs endMs store,
    totalDays := daysDiff,
    totalTime := totalTime,
    totalVisits := totalVisits,
    prevStart := prevStart,
    prevEnd := prevEnd,
    prevTotalTime := prevTotalTime,
    prevTotalVisits := prevTotalVisits,
    timeChange :=
      if prevTotalTime > 0 then
        ((totalTime - prevTotalTime : Int) : Rat) / (prevTotalTime : Rat) * 100
      else 0,
    visitsChange :=
      if prevTotalVisits > 0 then
        ((totalVisits - prevTotalVisits : Int) : Rat) / (prevTotalVisits : Rat) * 100
      else 0 }

theorem getRec_setRec_self (td : DailyData) (domain : String) (r : SiteRecord) :
    getRec (setRec td domain r) domain = some r := by
  induction td with
  | nil => simp [getRec, setRec]
  | cons p rest ih =>
      obtain ⟨k, r'⟩ := p
      by_cases h : k = domain
      · simp [getRec, setRec, h]
      · simp [getRec, setRec, h, ih]

theorem getRec_setRec_other (td : DailyData) (domain d' : String) (r : SiteRecord)
    (h : d' ≠ domain) : getRec (setRec td domain r) d' = getRec td d' := by
  induction td with
  | nil => simp [getRec, setRec, Ne.symm h]
  | cons p rest ih =>
      obtain ⟨k, r'⟩ := p
      by_cases hk : k = domain
      · subst hk
        simp [getRec, setRec, Ne.symm h]
      · by_cases hk' : k = d'
        · subst hk'
          simp [getRec, setRec, hk, h]
        · simp [getRec, setRec, hk, hk', ih]

/-- C9: for every settings input, the tracking delay persisted through the
dashboard's save path lies in [1,100]; an input above 100 is stored as 100
and an input below 1 is stored as 1, and the update is a total function
(never rejected). -/
theorem tracking_delay_clamped (current : Settings) (v : Option Int)
    (themeId : String) :
    1 ≤ (savedSettings current v themeId).trackingDelaySeconds ∧
    (savedSettings current v themeId).trackingDelaySeconds ≤ 100 ∧
    (∀ n : Int, v = some n → 100 < n →
      (savedSettings current v themeId).trackingDelaySeconds = 100) ∧
    (∀ n : Int, v = some n → n < 1 →
      (savedSettings current v themeId).trackingDelaySeconds = 1) := by
  have hval : (savedSettings current v themeId).trackingDelaySeconds
      = min 100 (max 1 (parsedOr1 v)) := rfl
  rw [hval]
  refine ⟨le_min (by norm_num) (le_max_left 1 _), min_le_left _ _, ?_, ?_⟩
  · intro n hv hn
    subst hv
    have hp : parsedOr1 (some n) = n := by
      simp only [parsedOr1]
      rw [if_neg (show ¬n = 0 by omega)]
    rw [hp]
    exact min_eq_left (le_max_of_le_right (by omega))
  · intro n hv hn
    subst hv
    by_cases hn0 : n = 0
    · have hp : parsedOr1 (some n) = 1 := by
        simp only [parsedOr1]
        rw [if_pos hn0]
      rw [hp, max_self]
      exact min_eq_right (by norm_num)
    · have hp : parsedOr1 (some n) = n := by
        simp only [parsedOr1]
        rw [if_neg hn0]
      rw [hp, max_eq_left (by omega)]
      exact min_eq_right (by norm_num)

/-- Witness for `tracking_delay_clamped` at the concrete out-of-range
input 500. -/
theorem tracking_delay_clamped_witness :
    (100 : Int) < 500 ∧
    (savedSettings DEFAULT_SETTINGS (some 500) "blue-500").trackingDelaySeconds
      = 100 :=
  ⟨by decide,
    (tracking_delay_clamped DEFAULT_SETTINGS (some 500) "blue-500").2.2.1 500 rfl
      (by decide)⟩

/-- C2: for a whitelisted domain, `saveTime` and `incrementVisitCount`
leave the whole daily record unchanged, whatever the duration and
favicon. -/
theorem whitelist_never_accumulates (domain favicon : String)
    (duration now : Int) (whitelist : List String) (td : DailyData)
    (h : whitelist.contains domain = true) :
    saveTime domain duration favicon now whitelist td = td ∧
    incrementVisitCount domain favicon now whitelist td = td := by
  constructor
  · unfold saveTime
    split
    · rfl
    · rfl
  · unfold incrementVisitCount
    rw [if_pos h]

/-- Witness for `whitelist_never_accumulates` on the concrete domain
`example.com`. -/
theorem whitelist_never_accumulates_witness :
    (["example.com"].contains "example.com" = true) ∧
    saveTime "example.com" 20000 "" 0 ["example.com"] [] = ([] : DailyData) ∧
    incrementVisitCount "example.com" "" 0 ["example.com"] [] = ([] : DailyData) :=
  ⟨by decide,
    whitelist_never_accumulates "example.com" "" 20000 0 ["example.com"] []
      (by decide)⟩

theorem aggregateDaysFrom_filter (range : TimeRange) (todayKey : String)
    (nowMs : Int) (dateMs : String → Int) :
    ∀ (store : List (String × DailyData)) (acc : DailyData),
      aggregateDaysFrom range todayKey nowMs dateMs store acc =
        aggregateDaysFrom range todayKey nowMs dateMs
          (store.filter (fun kv => includeKey range todayKey nowMs dateMs kv.1))
          acc := by
  intro store
  induction store with
  | nil => intro acc; rfl
  | cons kv rest ih =>
      intro acc
      obtain ⟨k, dd⟩ := kv
      cases hk : includeKey range todayKey nowMs dateMs k with
      | true => simp [aggregateDaysFrom, List.filter_cons, hk, ih]
      | false => simp [aggregateDaysFrom, List.filter_cons, hk, ih]

/-- C5: the range filter of `getAggregatedData` includes a stored key under
`today` exactly when the key equals the current day's key, and under `week`
exactly when the key is a date key whose absolute day distance from now is
at most 7; consequently the aggregation scan depends only on the keys the
filter admits. -/
theorem aggregate_range_filter (todayKey : String) (nowMs : Int)
    (dateMs : String → Int) (h : isDateKey todayKey = true) :
    (∀ key, includeKey TimeRange.today todayKey nowMs dateMs key = true ↔
      key = todayKey) ∧
    (∀ key, includeKey TimeRange.week todayKey nowMs dateMs key = true ↔
      isDateKey key = true ∧ diffDays nowMs (dateMs key) ≤ 7) ∧
    (∀ (range : TimeRange) (store : List (String × DailyData)),
      aggregateDays range todayKey nowMs dateMs store =
        aggregateDays range todayKey nowMs dateMs
          (store.filter (fun kv => includeKey range todayKey nowMs dateMs kv.1))) := by
  refine ⟨?_, ?_, ?_⟩
  · intro key
    unfold includeKey
    by_cases hw : key = "whitelist"
    · subst hw
      rw [if_pos rfl]
      constructor
      · intro hf
        exact absurd hf (by decide)
      · intro heq
        rw [← heq] at h
        exact absurd h (by decide)
    · rw [if_neg hw]
      cases hd : isDateKey key with
      | false =>
          rw [if_pos (by simp [hd])]
          constructor
          · intro hf
            exact absurd hf (by decide)
          · intro heq
            rw [heq, h] at hd
            exact absurd hd (by decide)
      | true =>
          rw [if_neg (by simp [hd])]
          simp
  · intro key
    unfold includeKey
    by_cases hw : key = "whitelist"
    · subst hw
      rw [if_pos rfl]
      constructor
      · intro hf
        exact absurd hf (by decide)
      · intro hc
        exact absurd hc.1 (by decide)
    · rw [if_neg hw]
      cases hd : isDateKey key with
      | false =>
          rw [if_pos (by simp [hd])]
          constructor
          · intro hf
            exact absurd hf (by decide)
          · intro hc
            exact absurd hc.1 (by simp [hd])
      | true =>
          rw [if_neg (by simp [hd])]
          simp [hd]
  · intro range store
    unfold aggregateDays
    exact aggregateDaysFrom_filter range todayKey nowMs dateMs store []

/-- Witness for `aggregate_range_filter` on concrete keys. -/
theorem aggregate_range_filter_witness :
    isDateKey "2026-10-11" = true ∧
    (includeKey TimeRange.today "2026-10-11" 0 (fun _ => 0) "2026-10-11" = true ↔
      "2026-10-11" = "2026-10-11") :=
  ⟨by decide,
    (aggregate_range_filter "2026-10-11" 0 (fun _ => 0) (by decide)).1 "2026-10-11"⟩

theorem one_le_maxTimeForIntensity (times : List Int) :
    1 ≤ maxTimeForIntensity times := by
  induction times with
  | nil => exact le_refl 1
  | cons t rest ih => exact le_max_of_le_right ih

theorem maxTimeForIntensity_le (times : List Int) (t : Int)
    (h : ∀ u ∈ times, u ≤ t) (h1 : 1 ≤ t) : maxTimeForIntensity times ≤ t := by
  induction times with
  | nil => exact h1
  | cons s rest ih =>
      exact max_le (h s (List.mem_cons_self s rest))
        (ih (fun u hu => h u (List.mem_cons_of_mem s hu)))

theorem le_maxTimeForIntensity_of_mem (times : List Int) (u : Int)
    (h : u ∈ times) : u ≤ maxTimeForIntensity times := by
  induction times with
  | nil => cases h
  | cons s rest ih =>
      rcases List.mem_cons.mp h with h' | h'
      · rw [h']
        exact le_max_left s (maxTimeForIntensity rest)
      · exact le_max_of_le_right (ih h')

theorem heatIntensity_nonneg_le_four (t m : Int) (hm : 1 ≤ m) :
    0 ≤ heatIntensity t m ∧ heatIntensity t m ≤ 4 := by
  unfold heatIntensity
  by_cases ht : t > 0
  · rw [if_pos ht]
    refine ⟨le_min (by norm_num) ?_, min_le_left _ _⟩
    unfold ceilDivInt
    apply Int.ediv_nonneg _ (by omega)
    nlinarith
  · rw [if_neg ht]
    norm_num

theorem heatIntensity_mono (t1 t2 m : Int) (hm : 1 ≤ m) (h : t1 ≤ t2) :
    heatIntensity t1 m ≤ heatIntensity t2 m := by
  by_cases h1 : t1 > 0
  · have h2 : t2 > 0 := lt_of_lt_of_le h1 h
    unfold heatIntensity
    rw [if_pos h1, if_pos h2]
    apply min_le_min (le_refl 4)
    unfold ceilDivInt
    apply Int.ediv_le_ediv (by omega)
    nlinarith
  · have e1 : heatIntensity t1 m = 0 := by
      unfold heatIntensity
      rw [if_neg h1]
    rw [e1]
    exact (heatIntensity_nonneg_le_four t2 m hm).1

theorem heatIntensity_self (t : Int) (h1 : 1 ≤ t) : heatIntensity t t = 4 := by
  unfold heatIntensity
  rw [if_pos (by omega)]
  have hc : ceilDivInt (t * 4) t = 4 := by
    unfold ceilDivInt
    have he : t * 4 + t - 1 = (t - 1) + t * 4 := by ring
    rw [he, Int.add_mul_ediv_left _ _ (by omega : t ≠ 0),
      Int.ediv_eq_zero_of_lt (by omega) (by omega)]
    norm_num
  rw [hc]
  exact min_self 4

/-- C6 (amended): in the heat-map series every entry's intensity is
computed by `heatIntensity` against the floored historical maximum; a day
with time 0 maps to intensity 0; intensity is monotone in time and always
lies in [0,4]; and a day whose time equals the historical maximum daily
time maps to intensity 4 provided that maximum is positive.  (The original
claim fails without the positivity proviso: when every recorded day has
time 0 the maximal day maps to 0, see the counterexample.) -/
theorem heat_intensity_properties (times : List Int) (t t1 t2 : Int)
    (daily : List (String × Int)) (dates : List String) :
    (∀ e ∈ heatMapSeries daily dates,
      e.2.2 = heatIntensity e.2.1
        (maxTimeForIntensity (daily.map (fun p => p.2)))) ∧
    (t ∈ times → (∀ u ∈ times, u ≤ t) → 0 < t →
      heatIntensity t (maxTimeForIntensity times) = 4) ∧
    heatIntensity 0 (maxTimeForIntensity times) = 0 ∧
    (t1 ≤ t2 →
      heatIntensity t1 (maxTimeForIntensity times) ≤
        heatIntensity t2 (maxTimeForIntensity times)) ∧
    0 ≤ heatIntensity t (maxTimeForIntensity times) ∧
    heatIntensity t (maxTimeForIntensity times) ≤ 4 := by
  refine ⟨?_, ?_, ?_, ?_, ?_⟩
  · intro e he
    unfold heatMapSeries at he
    rcases List.mem_map.mp he with ⟨ds, _, hds⟩
    rw [← hds]
  · intro hmem hall hpos
    have hM : maxTimeForIntensity times = t :=
      le_antisymm (maxTimeForIntensity_le times t hall (by omega))
        (le_maxTimeForIntensity_of_mem times t hmem)
    rw [hM]
    exact heatIntensity_self t (by omega)
  · unfold heatIntensity
    rw [if_neg (by omega)]
  · intro h12
    exact heatIntensity_mono t1 t2 _ (one_le_maxTimeForIntensity times) h12
  · exact heatIntensity_nonneg_le_four t _ (one_le_maxTimeForIntensity times)

/-- Witness for `heat_intensity_properties` at a concrete series. -/
theorem heat_intensity_properties_witness :
    (3 : Int) ∈ [(3 : Int), 1] ∧ (∀ u ∈ [(3 : Int), 1], u ≤ 3) ∧ (0 : Int) < 3 ∧
    heatIntensity 3 (maxTimeForIntensity [3, 1]) = 4 :=
  ⟨by decide, by decide, by decide,
    (heat_intensity_properties [3, 1] 3 0 0 [] []).2.1 (by decide) (by decide)
      (by decide)⟩

/-- C6 counterexample: a domain whose only recorded day has time 0 — 0 is
then its historical maximum daily time, yet the heat-map assigns that day
intensity 0, not 4, contradicting the claim's unconditional "day with time
equal to the maximum maps to 4". -/
theorem heat_intensity_zero_max_counterexample :
    (∀ u ∈ [(0 : Int)], u ≤ 0) ∧
    heatMapSeries [("2026-01-01", 0)] ["2026-01-01"] = [("2026-01-01", 0, 0)] ∧
    heatIntensity 0 (maxTimeForIntensity [0]) ≠ 4 := by
  refine ⟨by decide, by decide, by decide⟩

/-- C7: `getTrendMetrics` compares `[start, end]` against the equal-length
immediately preceding window — `prevEnd` is one day before `start` and
`prevStart` is `totalDays` days before `start`, where `totalDays` is the
inclusive day count of the current window when `end - start` is a whole
number of days; the percentage changes are `(cur - prev) / prev * 100` when
the previous total is positive, and exactly 0 whenever the corresponding
previous-period total is 0, regardless of the current totals. -/
theorem trend_prev_zero_and_window (store : List (String × DailyData))
    (dateMs : String → Int) (domain : String) (startMs endMs : Int) :
    ((getTrendMetrics store dateMs domain startMs endMs).prevTotalTime = 0 →
      (getTrendMetrics store dateMs domain startMs endMs).timeChange = 0) ∧
    ((getTrendMetrics store dateMs domain startMs endMs).prevTotalVisits = 0 →
      (getTrendMetrics store dateMs domain startMs endMs).visitsChange = 0) ∧
    ((getTrendMetrics store dateMs domain startMs endMs).prevTotalTime > 0 →
      (getTrendMetrics store dateMs domain startMs endMs).timeChange =
        (((getTrendMetrics store dateMs domain startMs endMs).totalTime -
          (getTrendMetrics store dateMs domain startMs endMs).prevTotalTime : Int) : Rat) /
          ((getTrendMetrics store dateMs domain startMs endMs).prevTotalTime : Rat) * 100) ∧
    ((getTrendMetrics store dateMs domain startMs endMs).prevTotalVisits > 0 →
      (getTrendMetrics store dateMs domain startMs endMs).visitsChange =
        (((getTrendMetrics store dateMs domain startMs endMs).totalVisits -
          (getTrendMetrics store dateMs domain startMs endMs).prevTotalVisits : Int) : Rat) /
          ((getTrendMetrics store dateMs domain startMs endMs).prevTotalVisits : Rat) * 100) ∧
    (getTrendMetrics store dateMs domain startMs endMs).prevEnd = startMs - 86400000 ∧
    (getTrendMetrics store dateMs domain startMs endMs).prevStart =
      startMs - (getTrendMetrics store dateMs domain startMs endMs).totalDays * 86400000 ∧
    (0 ≤ endMs - startMs → (86400000 : Int) ∣ (endMs - startMs) →
      (getTrendMetrics store dateMs domain startMs endMs).totalDays =
        (endMs - startMs) / 86400000 + 1) := by
  unfold getTrendMetrics
  simp only
  refine ⟨?_, ?_, ?_, ?_, trivial, by ring, ?_⟩
  · intro h
    rw [h]
    norm_num
  · intro h
    rw [h]
    norm_num
  · intro h
    rw [if_pos h]
  · intro h
    rw [if_pos h]
  · intro h0 hdvd
    obtain ⟨q, hq⟩ := hdvd
    unfold ceilDivInt
    omega

/-- Witness for `trend_prev_zero_and_window` on the empty store: the
previous-period total is 0 and the reported change is exactly 0. -/
theorem trend_prev_zero_and_window_witness :
    (getTrendMetrics [] (fun _ => 0) "example.com" 0 86400000).prevTotalTime = 0 ∧
    (getTrendMetrics [] (fun _ => 0) "example.com" 0 86400000).timeChange = 0 :=
  ⟨rfl,
    (trend_prev_zero_and_window [] (fun _ => 0) "example.com" 0 86400000).1 rfl⟩

theorem visitCountOf_increment_self (domain favicon : String) (now : Int)
    (whitelist : List String) (td : DailyData)
    (h : whitelist.contains domain = false) :
    visitCountOf (incrementVisitCount domain favicon now whitelist td) domain =
      visitCountOf td domain + 1 := by
  unfold incrementVisitCount
  rw [if_neg (by rw [h]; simp)]
  cases hr : getRec td domain with
  | none =>
      unfold visitCountOf
      rw [getRec_setRec_self, hr]
  | some r =>
      unfold visitCountOf
      rw [getRec_setRec_self, hr]

theorem visitCountOf_increment_other (domain d' favicon : String) (now : Int)
    (whitelist : List String) (td : DailyData) (h : d' ≠ domain) :
    visitCountOf (incrementVisitCount domain favicon now whitelist td) d' =
      visitCountOf td d' := by
  unfold incrementVisitCount
  by_cases hw : whitelist.contains domain = true
  · rw [if_pos hw]
  · rw [if_neg hw]
    cases hr : getRec td domain with
    | none =>
        unfold visitCountOf
        rw [getRec_setRec_other _ _ _ _ h]
    | some r =>
        unfold visitCountOf
        rw [getRec_setRec_other _ _ _ _ h]

theorem startTracking_go (parseHostname : String → Option String) (url : String)
    (trackVisit : Bool) (now : Int) (limits : List (String × Limit))
    (whitelist : List String) (b : Bool) (prev : TrackingState) (lv : LastVisit)
    (td : DailyData) (d : String) (doV : Bool)
    (hd : getDomain parseHostname url = some d) (hne : d ≠ "")
    (hl : getLimit limits d = none)
    (hdo : doV = (trackVisit &&
      !(decide (d = lv.domain) && decide (now - lv.timestamp < 5000)))) :
    startTracking parseHostname url trackVisit now limits whitelist b prev lv td =
      ⟨false, doV, true, ⟨some url, some now, some (getFavicon parseHostname url)⟩,
        if doV then ⟨d, now⟩ else lv,
        if doV then
          incrementVisitCount d (getFavicon parseHostname url) now whitelist td
        else td⟩ := by
  unfold startTracking
  rw [hd]
  simp only [hl]
  rw [if_neg hne]
  simp only [Bool.false_and, Bool.false_eq_true, if_false, ← hdo]

/-- C3: starting from the initial debounce state, two tracked navigations
to the same (unlimited, non-whitelisted) domain produce exactly one visit
increment when the second comes within 5000 ms of the first, and exactly
two when it comes 5000 ms or more after; a navigation to a different
domain is never debounced. -/
theorem visit_debounce_two_navigations (parseHostname : String → Option String)
    (u1 u2 : String) (t1 t2 : Int) (limits : List (String × Limit))
    (whitelist : List String) (b1 b2 : Bool) (prev : TrackingState)
    (td : DailyData) (d1 d2 : String)
    (h1 : getDomain parseHostname u1 = some d1) (hne1 : d1 ≠ "")
    (hl1 : getLimit limits d1 = none) (hw1 : whitelist.contains d1 = false)
    (h2 : getDomain parseHostname u2 = some d2) (hne2 : d2 ≠ "")
    (hl2 : getLimit limits d2 = none) (hw2 : whitelist.contains d2 = false) :
    (d2 = d1 → t2 - t1 < 5000 →
      (startTracking parseHostname u2 true t2 limits whitelist b2
        (startTracking parseHostname u1 true t1 limits whitelist b1 prev
          initialLastVisit td).state
        (startTracking parseHostname u1 true t1 limits whitelist b1 prev
          initialLastVisit td).lastVisit
        (startTracking parseHostname u1 true t1 limits whitelist b1 prev
          initialLastVisit td).today).visited = false ∧
      visitCountOf
        (startTracking parseHostname u2 true t2 limits whitelist b2
          (startTracking parseHostname u1 true t1 limits whitelist b1 prev
            initialLastVisit td).state
          (startTracking parseHostname u1 true t1 limits whitelist b1 prev
            initialLastVisit td).lastVisit
          (startTracking parseHostname u1 true t1 limits whitelist b1 prev
            initialLastVisit td).today).today d1 =
        visitCountOf td d1 + 1) ∧
    (d2 = d1 → 5000 ≤ t2 - t1 →
      (startTracking parseHostname u2 true t2 limits whitelist b2
        (startTracking parseHostname u1 true t1 limits whitelist b1 prev
          initialLastVisit td).state
        (startTracking parseHostname u1 true t1 limits whitelist b1 prev
          initialLastVisit td).lastVisit
        (startTracking parseHostname u1 true t1 limits whitelist b1 prev
          initialLastVisit td).today).visited = true ∧
      visitCountOf
        (startTracking parseHostname u2 true t2 limits whitelist b2
          (startTracking parseHostname u1 true t1 limits whitelist b1 prev
            initialLastVisit td).state
          (startTracking parseHostname u1 true t1 limits whitelist b1 prev
            initialLastVisit td).lastVisit
          (startTracking parseHostname u1 true t1 limits whitelist b1 prev
            initialLastVisit td).today).today d1 =
        visitCountOf td d1 + 2) ∧
    (d2 ≠ d1 →
      (startTracking parseHostname u2 true t2 limits whitelist b2
        (startTracking parseHostname u1 true t1 limits whitelist b1 prev
          initialLastVisit td).state
        (startTracking parseHostname u1 true t1 limits whitelist b1 prev
          initialLastVisit td).lastVisit
        (startTracking parseHostname u1 true t1 limits whitelist b1 prev
          initialLastVisit td).today).visited = true ∧
      visitCountOf
        (startTracking parseHostname u2 true t2 limits whitelist b2
          (startTracking parseHostname u1 true t1 limits whitelist b1 prev
            initialLastVisit td).state
          (startTracking parseHostname u1 true t1 limits whitelist b1 prev
            initialLastVisit td).lastVisit
          (startTracking parseHostname u1 true t1 limits whitelist b1 prev
            initialLastVisit td).today).today d2 =
        visitCountOf td d2 + 1) := by
  have e1 := startTracking_go parseHostname u1 true t1 limits whitelist b1 prev
    initialLastVisit td d1 true h1 hne1 hl1
    (by simp [initialLastVisit, hne1])
  rw [e1]
  simp only [if_true]
  refine ⟨?_, ?_, ?_⟩
  · intro hd21 hlt
    have e2 := startTracking_go parseHostname u2 true t2 limits whitelist b2
      ⟨some u1, some t1, some (getFavicon parseHostname u1)⟩ ⟨d1, t1⟩
      (incrementVisitCount d1 (getFavicon parseHostname u1) t1 whitelist td)
      d2 false h2 hne2 hl2 (by simp [hd21, hlt])
    rw [e2]
    simp only [if_neg Bool.false_ne_true]
    refine ⟨by trivial, ?_⟩
    exact visitCountOf_increment_self d1 _ t1 whitelist td hw1
  · intro hd21 hge
    have e2 := startTracking_go parseHostname u2 true t2 limits whitelist b2
      ⟨some u1, some t1, some (getFavicon parseHostname u1)⟩ ⟨d1, t1⟩
      (incrementVisitCount d1 (getFavicon parseHostname u1) t1 whitelist td)
      d2 true h2 hne2 hl2 (by simp [hd21]; omega)
    rw [e2]
    simp only [if_true]
    refine ⟨by trivial, ?_⟩
    rw [hd21]
    rw [visitCountOf_increment_self d1 _ t2 whitelist _ hw1]
    rw [visitCountOf_increment_self d1 _ t1 whitelist td hw1]
  · intro hd21
    have e2 := startTracking_go parseHostname u2 true t2 limits whitelist b2
      ⟨some u1, some t1, some (getFavicon parseHostname u1)⟩ ⟨d1, t1⟩
      (incrementVisitCount d1 (getFavicon parseHostname u1) t1 whitelist td)
      d2 true h2 hne2 hl2 (by simp [hd21])
    rw [e2]
    simp only [if_true]
    refine ⟨by trivial, ?_⟩
    rw [visitCountOf_increment_self d2 _ t2 whitelist _ hw2]
    rw [visitCountOf_increment_other d1 d2 _ t1 whitelist td hd21]

/-- Witness for `visit_debounce_two_navigations`: two navigations to
`example.com` 1000 ms apart count a single visit. -/
theorem visit_debounce_two_navigations_witness :
    (startTracking (fun s => some s) "example.com" true 1000 [] [] true
      (startTracking (fun s => some s) "example.com" true 0 [] [] true
        ⟨none, none, none⟩ initialLastVisit []).state
      (startTracking (fun s => some s) "example.com" true 0 [] [] true
        ⟨none, none, none⟩ initialLastVisit []).lastVisit
      (startTracking (fun s => some s) "example.com" true 0 [] [] true
        ⟨none, none, none⟩ initialLastVisit []).today).visited = false ∧
    visitCountOf
      (startTracking (fun s => some s) "example.com" true 1000 [] [] true
        (startTracking (fun s => some s) "example.com" true 0 [] [] true
          ⟨none, none, none⟩ initialLastVisit []).state
        (startTracking (fun s => some s) "example.com" true 0 [] [] true
          ⟨none, none, none⟩ initialLastVisit []).lastVisit
        (startTracking (fun s => some s) "example.com" true 0 [] [] true
          ⟨none, none, none⟩ initialLastVisit []).today).today "example.com" =
      visitCountOf [] "example.com" + 1 :=
  (visit_debounce_two_navigations (fun s => some s) "example.com" "example.com"
    0 1000 [] [] true true ⟨none, none, none⟩ [] "example.com" "example.com"
    (by decide) (by decide) rfl (by decide)
    (by decide) (by decide) rfl (by decide)).1 rfl (by decide)


theorem getDailyUsage_sent80 (td : DailyData) (dm : String) :
    (getDailyUsage td dm).notifications.sent80 = sent80Of td dm := by
  unfold getDailyUsage sent80Of
  cases getRec td dm <;> rfl

theorem getDailyUsage_sent100 (td : DailyData) (dm : String) :
    (getDailyUsage td dm).notifications.sent100 = sent100Of td dm := by
  unfold getDailyUsage sent100Of
  cases getRec td dm <;> rfl

theorem getDailyUsage_time (td : DailyData) (dm : String) :
    (getDailyUsage td dm).time = timeOf td dm := by
  unfold getDailyUsage timeOf
  cases getRec td dm <;> rfl

theorem sent80Of_update80 (td : DailyData) (dm : String) :
    sent80Of (updateNotificationState td dm (some true) none) dm = true := by
  unfold updateNotificationState sent80Of
  cases getRec td dm <;> simp [getRec_setRec_self]

theorem sent100Of_update80 (td : DailyData) (dm : String) :
    sent100Of (updateNotificationState td dm (some true) none) dm =
      sent100Of td dm := by
  unfold updateNotificationState sent100Of
  cases getRec td dm <;> simp [getRec_setRec_self]

theorem sent100Of_update100 (td : DailyData) (dm : String) :
    sent100Of (updateNotificationState td dm none (some true)) dm = true := by
  unfold updateNotificationState sent100Of
  cases getRec td dm <;> simp [getRec_setRec_self]

theorem sent80Of_update100 (td : DailyData) (dm : String) :
    sent80Of (updateNotificationState td dm none (some true)) dm =
      sent80Of td dm := by
  unfold updateNotificationState sent80Of
  cases getRec td dm <;> simp [getRec_setRec_self]

theorem timeOf_updateNS (td : DailyData) (dm d : String) (s80 s100 : Option Bool) :
    timeOf (updateNotificationState td dm s80 s100) d = timeOf td d := by
  by_cases hd : d = dm
  · subst hd
    unfold updateNotificationState timeOf
    cases getRec td d <;> simp [getRec_setRec_self]
  · unfold updateNotificationState timeOf
    rw [getRec_setRec_other _ _ _ _ hd]

theorem timeOf_checkLimits (limits : List (String × Limit)) (dm : String)
    (tadd : Int) (atd : Option String) (td : DailyData) (d : String) :
    timeOf (checkLimits limits dm tadd atd td).today d = timeOf td d := by
  unfold checkLimits
  cases hl : getLimit limits dm with
  | none => rfl
  | some L =>
      simp only
      split
      · rw [timeOf_updateNS]
        split
        · rw [timeOf_updateNS]
        · rfl
      · split
        · rw [timeOf_updateNS]
        · rfl

theorem checkLimits_fired80_sets (limits : List (String × Limit)) (dm : String)
    (tadd : Int) (atd : Option String) (td : DailyData)
    (h : (checkLimits limits dm tadd atd td).fired80 = true) :
    sent80Of (checkLimits limits dm tadd atd td).today dm = true := by
  unfold checkLimits at h ⊢
  cases hl : getLimit limits dm with
  | none =>
      rw [hl] at h
      simp at h
  | some L =>
      rw [hl] at h
      simp only at h ⊢
      rw [h]
      simp only [if_true]
      split
      · rw [sent80Of_update100, sent80Of_update80]
      · rw [sent80Of_update80]

theorem checkLimits_sent80_stable (limits : List (String × Limit)) (dm : String)
    (tadd : Int) (atd : Option String) (td : DailyData)
    (h : sent80Of td dm = true) :
    (checkLimits limits dm tadd atd td).fired80 = false ∧
      sent80Of (checkLimits limits dm tadd atd td).today dm = true := by
  unfold checkLimits
  cases hl : getLimit limits dm with
  | none => exact ⟨rfl, h⟩
  | some L =>
      have hu : (getDailyUsage td dm).notifications.sent80 = true := by
        rw [getDailyUsage_sent80]
        exact h
      constructor
      · simp [hu]
      · simp only [hu, Bool.not_true, Bool.and_false, Bool.false_and,
          Bool.false_eq_true, if_false]
        split
        · rw [sent80Of_update100]
          exact h
        · exact h

theorem checkLimits_fired100_sets (limits : List (String × Limit)) (dm : String)
    (tadd : Int) (atd : Option String) (td : DailyData)
    (h : (checkLimits limits dm tadd atd td).fired100 = true) :
    sent100Of (checkLimits limits dm tadd atd td).today dm = true := by
  unfold checkLimits at h ⊢
  cases hl : getLimit limits dm with
  | none =>
      rw [hl] at h
      simp at h
  | some L =>
      rw [hl] at h
      simp only at h ⊢
      rw [h]
      simp only [if_true]
      rw [sent100Of_update100]

theorem checkLimits_sent100_stable (limits : List (String × Limit)) (dm : String)
    (tadd : Int) (atd : Option String) (td : DailyData)
    (h : sent100Of td dm = true) :
    (checkLimits limits dm tadd atd td).fired100 = false ∧
      sent100Of (checkLimits limits dm tadd atd td).today dm = true := by
  unfold checkLimits
  cases hl : getLimit limits dm with
  | none => exact ⟨rfl, h⟩
  | some L =>
      have hu : (getDailyUsage td dm).notifications.sent100 = true := by
        rw [getDailyUsage_sent100]
        exact h
      constructor
      · simp [hu]
      · simp only [hu, Bool.not_true, Bool.and_false, Bool.false_eq_true, if_false]
        split
        · rw [sent100Of_update80]
          exact h
        · exact h

theorem iterateChecks_count80_zero (limits : List (String × Limit)) (dm : String)
    (atd : Option String) :
    ∀ (adds : List Int) (td : DailyData), sent80Of td dm = true →
      (iterateChecks limits dm atd adds td).1 = 0 := by
  intro adds
  induction adds with
  | nil => intro td _; rfl
  | cons t rest ih =>
      intro td h
      have hs := checkLimits_sent80_stable limits dm t atd td h
      have h0 := ih ((checkLimits limits dm t atd td).today) hs.2
      simp [iterateChecks, hs.1, h0]

theorem iterateChecks_count100_zero (limits : List (String × Limit)) (dm : String)
    (atd : Option String) :
    ∀ (adds : List Int) (td : DailyData), sent100Of td dm = true →
      (iterateChecks limits dm atd adds td).2.1 = 0 := by
  intro adds
  induction adds with
  | nil => intro td _; rfl
  | cons t rest ih =>
      intro td h
      have hs := checkLimits_sent100_stable limits dm t atd td h
      have h0 := ih ((checkLimits limits dm t atd td).today) hs.2
      simp [iterateChecks, hs.1, h0]

theorem iterateChecks_count80_le_one (limits : List (String × Limit)) (dm : String)
    (atd : Option String) :
    ∀ (adds : List Int) (td : DailyData),
      (iterateChecks limits dm atd adds td).1 ≤ 1 := by
  intro adds
  induction adds with
  | nil => intro td; exact Nat.zero_le 1
  | cons t rest ih =>
      intro td
      cases hf : (checkLimits limits dm t atd td).fired80 with
      | true =>
          have hset := checkLimits_fired80_sets limits dm t atd td hf
          have h0 := iterateChecks_count80_zero limits dm atd rest _ hset
          simp [iterateChecks, hf, h0]
      | false =>
          have h1 := ih ((checkLimits limits dm t atd td).today)
          simp [iterateChecks, hf, h1]

theorem iterateChecks_count100_le_one (limits : List (String × Limit)) (dm : String)
    (atd : Option String) :
    ∀ (adds : List Int) (td : DailyData),
      (iterateChecks limits dm atd adds td).2.1 ≤ 1 := by
  intro adds
  induction adds with
  | nil => intro td; exact Nat.zero_le 1
  | cons t rest ih =>
      intro td
      cases hf : (checkLimits limits dm t atd td).fired100 with
      | true =>
          have hset := checkLimits_fired100_sets limits dm t atd td hf
          have h0 := iterateChecks_count100_zero limits dm atd rest _ hset
          simp [iterateChecks, hf, h0]
      | false =>
          have h1 := ih ((checkLimits limits dm t atd td).today)
          simp [iterateChecks, hf, h1]

/-- C4: with a limit configured for a domain, `checkLimits` fires the 80%
notification iff `notify80` is set, the running total is at least 80% of
the limit (`5*total ≥ 4*limit`, the exact form of `total >= limit*0.8`)
but below the limit, and `sent80` is not yet set — and then marks `sent80`;
it fires the 100% notification iff `notify100` is set, the total has
reached the limit and `sent100` is not yet set — and then marks `sent100`;
and across any sequence of invocations against the same day's bucket each
notification fires at most once. -/
theorem checkLimits_notification_idempotent (limits : List (String × Limit))
    (dm : String) (tadd : Int) (atd : Option String) (td : DailyData) (L : Limit)
    (hl : getLimit limits dm = some L) :
    ((checkLimits limits dm tadd atd td).fired80 = true ↔
      (L.notify80 = true ∧ 5 * (timeOf td dm + tadd) ≥ 4 * L.timeLimit ∧
        timeOf td dm + tadd < L.timeLimit ∧ sent80Of td dm = false)) ∧
    ((checkLimits limits dm tadd atd td).fired100 = true ↔
      (L.notify100 = true ∧ timeOf td dm + tadd ≥ L.timeLimit ∧
        sent100Of td dm = false)) ∧
    ((checkLimits limits dm tadd atd td).fired80 = true →
      sent80Of (checkLimits limits dm tadd atd td).today dm = true) ∧
    ((checkLimits limits dm tadd atd td).fired100 = true →
      sent100Of (checkLimits limits dm tadd atd td).today dm = true) ∧
    (∀ adds : List Int,
      (iterateChecks limits dm atd adds td).1 ≤ 1 ∧
      (iterateChecks limits dm atd adds td).2.1 ≤ 1) := by
  refine ⟨?_, ?_, checkLimits_fired80_sets limits dm tadd atd td,
    checkLimits_fired100_sets limits dm tadd atd td,
    fun adds => ⟨iterateChecks_count80_le_one limits dm atd adds td,
      iterateChecks_count100_le_one limits dm atd adds td⟩⟩
  · unfold checkLimits
    rw [hl]
    simp only [Bool.and_eq_true, Bool.not_eq_true', decide_eq_true_eq,
      decide_eq_false_iff_not, not_le, getDailyUsage_sent80, getDailyUsage_time]
    tauto
  · unfold checkLimits
    rw [hl]
    simp only [Bool.and_eq_true, Bool.not_eq_true', decide_eq_true_eq,
      decide_eq_false_iff_not, not_le, getDailyUsage_sent100, getDailyUsage_time]
    tauto

/-- Witness for `checkLimits_notification_idempotent`: a 3,600,000 ms limit
with 2,950,000 ms of usage fires the 80% notification. -/
theorem checkLimits_notification_idempotent_witness :
    getLimit [("example.com", ⟨3600000, true, true, false⟩)] "example.com" =
      some ⟨3600000, true, true, false⟩ ∧
    (checkLimits [("example.com", ⟨3600000, true, true, false⟩)] "example.com"
      2950000 none []).fired80 = true :=
  ⟨rfl,
    (checkLimits_notification_idempotent
      [("example.com", ⟨3600000, true, true, false⟩)] "example.com" 2950000 none
      [] ⟨3600000, true, true, false⟩ rfl).1.mpr
      ⟨rfl, by decide, by decide, rfl⟩⟩

theorem timeOf_saveTime (domain favicon : String) (duration now : Int)
    (whitelist : List String) (td : DailyData) (hne : domain ≠ "")
    (hdur : 0 < duration) (hw : whitelist.contains domain = false) :
    timeOf (saveTime domain duration favicon now whitelist td) domain =
      timeOf td domain + duration := by
  unfold saveTime
  rw [if_neg (by push_neg; exact ⟨hne, by omega⟩)]
  rw [if_neg (by rw [hw]; simp)]
  cases hr : getRec td domain with
  | none =>
      unfold timeOf
      rw [hr]
      simp [getRec_setRec_self]
  | some r =>
      unfold timeOf
      rw [hr]
      simp [getRec_setRec_self]

/-- C1: `commitTime` with no active session (absent or falsy `_currentUrl`
or `_startTime`) is a no-op and stays a no-op on repetition; with an active
session on a trackable, non-whitelisted domain and a delay setting of at
least 1 second, it adds the session duration to the domain's daily time
exactly once iff `minDwell ≤ duration ≤ 300000` (minDwell =
`trackingDelaySeconds * 1000`), and leaves the store untouched otherwise. -/
theorem commitTime_writes_iff_window (parseHostname : String → Option String)
    (now delaySec : Int) (whitelist : List String)
    (limits : List (String × Limit)) (atd : Option String) (ts : TrackingState)
    (td : DailyData) :
    (hasSession ts = false →
      commitTime parseHostname now delaySec whitelist limits atd ts td = td ∧
      commitTime parseHostname now delaySec whitelist limits atd ts
        (commitTime parseHostname now delaySec whitelist limits atd ts td) = td) ∧
    (∀ domain : String, hasSession ts = true →
      getDomain parseHostname (ts.currentUrl.getD "") = some domain →
      domain ≠ "" →
      whitelist.contains domain = false →
      1 ≤ delaySec →
      ((delaySec * 1000 ≤ now - ts.startTime.getD 0 ∧
          now - ts.startTime.getD 0 ≤ 300000) →
        timeOf (commitTime parseHostname now delaySec whitelist limits atd ts td)
          domain = timeOf td domain + (now - ts.startTime.getD 0)) ∧
      (¬(delaySec * 1000 ≤ now - ts.startTime.getD 0 ∧
          now - ts.startTime.getD 0 ≤ 300000) →
        commitTime parseHostname now delaySec whitelist limits atd ts td = td)) := by
  constructor
  · intro h
    have e : commitTime parseHostname now delaySec whitelist limits atd ts td
        = td := by
      unfold commitTime
      simp [h]
    refine ⟨e, ?_⟩
    rw [e]
    exact e
  · intro domain hs hd hne hw hdelay
    constructor
    · intro hwin
      unfold commitTime
      simp only [hs, Bool.not_true, Bool.false_eq_true, if_false]
      simp only [hd]
      rw [if_pos ⟨hne, hwin.1, hwin.2⟩]
      rw [timeOf_checkLimits]
      exact timeOf_saveTime domain _ _ now whitelist td hne (by omega) hw
    · intro hnwin
      unfold commitTime
      simp only [hs, Bool.not_true, Bool.false_eq_true, if_false]
      simp only [hd]
      rw [if_neg (fun hc => hnwin ⟨hc.2.1, hc.2.2⟩)]

/-- Witness for `commitTime_writes_iff_window`: a 20,000 ms session on
`example.com` at delay 15 s is committed, adding exactly 20,000 ms. -/
theorem commitTime_writes_iff_window_witness :
    hasSession ⟨some "https://example.com/", some 1000, some ""⟩ = true ∧
    timeOf (commitTime (fun _ => some "example.com") 21000 15 [] [] none
        ⟨some "https://example.com/", some 1000, some ""⟩ []) "example.com" =
      timeOf ([] : DailyData) "example.com" + (21000 - 1000) :=
  ⟨by decide,
    ((commitTime_writes_iff_window (fun _ => some "example.com") 21000 15 [] []
      none ⟨some "https://example.com/", some 1000, some ""⟩ []).2 "example.com"
      (by decide) (by decide) (by decide) (by decide) (by decide)).1
      (by decide)⟩

/-- C8: a navigation to a URL whose domain has a blocking limit already
reached (today's accumulated time at or above the limit), with the active
tab resolvable, redirects to the block page and starts no tracking
session: the tracking-state keys are not written, the debounce state and
the daily bucket are untouched, and no visit is counted. -/
theorem startTracking_blocked_stays_idle (parseHostname : String → Option String)
    (url : String) (trackVisit : Bool) (now : Int)
    (limits : List (String × Limit)) (whitelist : List String)
    (prev : TrackingState) (lv : LastVisit) (td : DailyData) (domain : String)
    (L : Limit) (hd : getDomain parseHostname url = some domain)
    (hne : domain ≠ "") (hl : getLimit limits domain = some L)
    (hb : L.blockOnLimit = true)
    (hu : (getDailyUsage td domain).time ≥ L.timeLimit) :
    startTracking parseHostname url trackVisit now limits whitelist true prev lv
      td = ⟨true, false, false, prev, lv, td⟩ := by
  unfold startTracking
  simp only [hd]
  rw [if_neg hne]
  simp only [hl]
  simp [hb, hu]

/-- Witness for `startTracking_blocked_stays_idle`: `example.com` at its
1000 ms blocking limit is redirected and not tracked. -/
theorem startTracking_blocked_stays_idle_witness :
    startTracking (fun _ => some "example.com") "https://example.com/" true 5000
      [("example.com", ⟨1000, false, false, true⟩)] []
      true ⟨none, none, none⟩ initialLastVisit
      [("example.com", ⟨1000, "", 0, 0, ⟨false, false⟩⟩)] =
      ⟨true, false, false, ⟨none, none, none⟩, initialLastVisit,
        [("example.com", ⟨1000, "", 0, 0, ⟨false, false⟩⟩)]⟩ :=
  startTracking_blocked_stays_idle (fun _ => some "example.com")
    "https://example.com/" true 5000 [("example.com", ⟨1000, false, false, true⟩)]
    [] ⟨none, none, none⟩ initialLastVisit
    [("example.com", ⟨1000, "", 0, 0, ⟨false, false⟩⟩)] "example.com"
    ⟨1000, false, false, true⟩ (by decide) (by decide) rfl rfl (by decide)
